import Mathlib

/-!
Shallow embedding of `pychnl`'s stream-URL extraction core
(`src/pychnl/streamurl/streamurl.py`), together with theorems settling the
specification claims about it.  Strings are modelled with Lean `String`;
Python truthiness of optional strings, `str.lower`, `str.strip`, the `in`
substring test and `str.endswith` are given explicit executable definitions
over character lists.
-/

namespace PyChnl

/-- ASCII lower-casing of a single character, as Python `str.lower` acts on
the ASCII range (the only range appearing in MIME types and URLs here). -/
def lowerChar (c : Char) : Char :=
  if 65 ≤ c.toNat ∧ c.toNat ≤ 90 then Char.ofNat (c.toNat + 32) else c

/-- Python `s.lower()` restricted to ASCII case mapping. -/
def pyLower (s : String) : String :=
  ⟨s.data.map lowerChar⟩

/-- Whitespace characters recognised by Python `str.strip()` (ASCII part). -/
def isSpaceChar (c : Char) : Bool :=
  c = ' ' || c = '\t' || c = '\n' || c = '\r' || c.toNat = 11 || c.toNat = 12

/-- Python `s.strip()`: drop whitespace from both ends. -/
def pyStrip (s : String) : String :=
  ⟨((s.data.dropWhile isSpaceChar).reverse.dropWhile isSpaceChar).reverse⟩

/-- `hasPre needle hay`: `needle` is a prefix of `hay` (over char lists). -/
def hasPre : List Char → List Char → Bool
  | [], _ => true
  | _ :: _, [] => false
  | a :: as, b :: bs => a = b && hasPre as bs

/-- `subList needle hay`: `needle` occurs as a contiguous sublist of `hay`. -/
def subList (needle : List Char) : List Char → Bool
  | [] => needle.isEmpty
  | c :: cs => hasPre needle (c :: cs) || subList needle cs

/-- Python `needle in hay` on strings (substring containment). -/
def pyIn (needle hay : String) : Bool :=
  subList needle.data hay.data

/-- Python `s.endswith(suffix)`. -/
def pyEndsWith (s suffix : String) : Bool :=
  hasPre suffix.data.reverse s.data.reverse

/-- Python truthiness of an optional string attribute: `None` and the empty
string are falsy. -/
def pyTruthy : Option String → Bool
  | none => false
  | some s => !s.data.isEmpty

end PyChnl

namespace PyChnl

/-- A `<source>` child element as seen through the driver: its `src` and
`type` attributes (absent attributes are `none`). -/
structure SourceDecl where
  src : Option String
  source_type : Option String
deriving DecidableEq

/-- An entry of `stream_info['sources']`: `{'url': src, 'type': source_type}`. -/
structure SourceInfo where
  url : String
  source_type : Option String
deriving DecidableEq

/-- Stream format tags used as keys of `stream_info['urls']`. -/
inductive Fmt
  | m3u8
  | mp4
  | webm
deriving DecidableEq

/-- The `stream_info['urls']` dictionary: at most one URL per format tag. -/
structure Urls where
  m3u8 : Option String
  mp4 : Option String
  webm : Option String
deriving DecidableEq

/-- The empty `urls` dictionary. -/
def Urls.empty : Urls := ⟨none, none, none⟩

/-- Dictionary lookup `urls[tag]`. -/
def Urls.get (u : Urls) : Fmt → Option String
  | .m3u8 => u.m3u8
  | .mp4 => u.mp4
  | .webm => u.webm

/-- Dictionary assignment `urls[tag] = v`. -/
def Urls.set (u : Urls) : Fmt → String → Urls
  | .m3u8, v => ⟨some v, u.mp4, u.webm⟩
  | .mp4, v => ⟨u.m3u8, some v, u.webm⟩
  | .webm, v => ⟨u.m3u8, u.mp4, some v⟩

/-- Python truthiness of the `urls` dict (non-empty). -/
def Urls.nonempty (u : Urls) : Bool :=
  u.m3u8.isSome || u.mp4.isSome || u.webm.isSome

/-- The `is_m3u8` flag computed for one source (streamurl.py lines 146-162):
MIME playlist tokens checked case-insensitively on `source_type.lower()`,
then the `.m3u8` URL suffix, then the `delta.webchnl.live` host heuristic. -/
def is_m3u8 (src : String) (source_type : Option String) : Bool :=
  (pyTruthy source_type &&
    (pyIn "application/x-mpegurl" (pyLower (source_type.getD "")) ||
     pyIn "application/vnd.apple.mpegurl" (pyLower (source_type.getD "")) ||
     pyIn "m3u8" (pyLower (source_type.getD ""))))
  || pyEndsWith src ".m3u8"
  || (pyIn "delta.webchnl.live" src && pyIn ".m3u8" src)

/-- The classification cascade for one source with truthy `src`
(streamurl.py lines 164-178): `is_m3u8` first, then the case-sensitive MIME
substring checks for `mp4` and `webm`, then the `.mp4` / `.webm` suffixes. -/
def classify (src : String) (source_type : Option String) : Option Fmt :=
  if is_m3u8 src source_type then some .m3u8
  else if pyTruthy source_type && pyIn "mp4" (source_type.getD "") then some .mp4
  else if pyTruthy source_type && pyIn "webm" (source_type.getD "") then some .webm
  else if pyEndsWith src ".mp4" then some .mp4
  else if pyEndsWith src ".webm" then some .webm
  else none

end PyChnl

namespace PyChnl

/-- One iteration of the per-source loop (streamurl.py lines 132-178): a
source with falsy `src` is skipped entirely; otherwise it is appended to
`sources` and, when the classification cascade assigns a format, its URL
overwrites the `urls` entry for that tag. -/
def sourceStep (acc : Urls × List SourceInfo) (s : SourceDecl) : Urls × List SourceInfo :=
  if pyTruthy s.src then
    let src := s.src.getD ""
    let sources := acc.2 ++ [⟨src, s.source_type⟩]
    match classify src s.source_type with
    | some tag => (acc.1.set tag src, sources)
    | none => (acc.1, sources)
  else acc

/-- The whole per-source loop over the `<video>` element's children. -/
def processSources (sources : List SourceDecl) : Urls × List SourceInfo :=
  sources.foldl sourceStep (Urls.empty, [])

/-- One result of `re.findall`: a plain string when the pattern has at most
one capturing group (for one group, the group itself), a tuple of group
strings when it has several. -/
inductive PyMatch
  | str (s : String)
  | tup (groups : List String)
deriving DecidableEq

/-- `matches[0]` post-processing in `_extract_m3u8_from_page` (lines
257-259): a tuple result is replaced by its first component. -/
def matchToUrl : PyMatch → String
  | .str s => s
  | .tup groups => groups.headD ""

/-- The four regex pattern literals of `_extract_m3u8_from_page` (lines
246-251), most specific first; the last two carry one capturing group. -/
def m3u8Patterns : List String :=
  ["https://delta\\.webchnl\\.live/memfs/[^\"\\x27<>\\s]+\\.m3u8",
   "https?://[^\\s\"\\x27<>]+\\.m3u8[^\\s\"\\x27<>]*",
   "\"(https://delta\\.webchnl\\.live/[^\"]+\\.m3u8)\"",
   "\\x27(https://delta\\.webchnl\\.live/[^\\x27]+\\.m3u8)\\x27"]

/-- The outcome of the two external probes of `_extract_m3u8_from_page`:
`findall p` is what `re.findall(p, page_source)` returns for pattern `p`,
and `js_result` the value of the in-page script (already `none` when the
script raised or returned null, both of which the code treats alike). -/
structure PageScan where
  findall : String → List PyMatch
  js_result : Option String

/-- The pattern loop (lines 253-261): first match of the first pattern whose
`findall` list is non-empty. -/
def firstPatternHit (findall : String → List PyMatch) : List String → Option String
  | [] => none
  | p :: rest =>
    match findall p with
    | [] => firstPatternHit findall rest
    | m :: _ => some (matchToUrl m)

/-- `_extract_m3u8_from_page` (lines 234-299): the pattern search over the
page markup, then the in-page script as second strategy. -/
def extract_m3u8_from_page (scan : PageScan) : Option String :=
  match firstPatternHit scan.findall m3u8Patterns with
  | some url => some url
  | none => scan.js_result

/-- The predicate of the broader source scan (lines 188-197): a truthy `src`
containing `.m3u8` or `delta.webchnl.live`. -/
def broadMatch (s : SourceDecl) : Bool :=
  pyTruthy s.src &&
    (pyIn ".m3u8" (s.src.getD "") || pyIn "delta.webchnl.live" (s.src.getD ""))

/-- Everything `_extract_stream_urls` reads off a successfully loaded player
page: attributes of the container and video element, the child source
declarations, the page-scan oracle, the page-wide `source` query result, and
the metadata attributes. -/
structure Page where
  container_poster : Option String
  video_src : Option String
  video_poster : Option String
  source_elements : List SourceDecl
  scan : PageScan
  all_sources : List SourceDecl
  attr : String → Option String
  videoWidth : Option String
  videoHeight : Option String

/-- The assembled `stream_info` dictionary (before the assembler adds channel
name and timestamp). -/
structure StreamInfo where
  urls : Urls
  poster : Option String
  blob_url : Option String
  sources : List SourceInfo
  metadata : List (String × String)
  dimensions : Option (String × String)
deriving DecidableEq

/-- `stream_info['poster']` (lines 108-125): the container's poster when
truthy, else the video element's poster when truthy, else `None`. -/
def posterOf (p : Page) : Option String :=
  if pyTruthy p.container_poster then p.container_poster
  else if pyTruthy p.video_poster then p.video_poster
  else none

/-- `stream_info['blob_url']` (lines 116-119). -/
def blobOf (p : Page) : Option String :=
  if pyTruthy p.video_src then p.video_src else none

/-- `stream_info['sources']` after the per-source loop. -/
def sourcesOf (p : Page) : List SourceInfo :=
  (processSources p.source_elements).2

/-- `stream_info['urls']` after the per-source loop (lines 132-178). -/
def urlsLoop (p : Page) : Urls :=
  (processSources p.source_elements).1

/-- `stream_info['urls']` after the page-text fallback (lines 180-186): when
the loop produced no `m3u8` entry and the fallback yields a truthy URL, that
URL is installed under `m3u8`. -/
def urlsAfterPage (p : Page) : Urls :=
  if (urlsLoop p).m3u8.isNone then
    match extract_m3u8_from_page p.scan with
    | some url => if url.data.isEmpty then urlsLoop p else (urlsLoop p).set .m3u8 url
    | none => urlsLoop p
  else urlsLoop p

/-- `stream_info['urls']` after the broader source scan (lines 188-197): when
there is still no `m3u8` entry, the first page-wide source whose URL contains
`.m3u8` or `delta.webchnl.live` is installed under `m3u8`. -/
def urlsFinal (p : Page) : Urls :=
  if (urlsAfterPage p).m3u8.isNone then
    match p.all_sources.find? broadMatch with
    | some s => (urlsAfterPage p).set .m3u8 (s.src.getD "")
    | none => urlsAfterPage p
  else urlsAfterPage p

/-- The fixed metadata attribute list (line 200). -/
def video_attrs : List String := ["preload", "autoplay", "controls", "loop", "muted"]

/-- `stream_info['metadata']` (lines 199-204): each attribute recorded when
the driver returns a non-`None` value (empty strings are kept). -/
def metadataOf (p : Page) : List (String × String) :=
  video_attrs.filterMap fun a => (p.attr a).map fun v => (a, v)

/-- `stream_info['metadata']['dimensions']` (lines 206-216): present only
when both reported dimensions are truthy. -/
def dimensionsOf (p : Page) : Option (String × String) :=
  if pyTruthy p.videoWidth && pyTruthy p.videoHeight then
    some (p.videoWidth.getD "", p.videoHeight.getD "")
  else none

/-- `_extract_stream_urls` on a loaded page (lines 97-222): assembles the
record and returns it when `urls`, `blob_url` or `sources` is non-empty,
`None` otherwise. -/
def extract_stream_urls (p : Page) : Option StreamInfo :=
  if (urlsFinal p).nonempty || (blobOf p).isSome || !(sourcesOf p).isEmpty then
    some ⟨urlsFinal p, posterOf p, blobOf p, sourcesOf p, metadataOf p, dimensionsOf p⟩
  else none

end PyChnl

namespace PyChnl

/-- One listing entry (`.item` element): the text of its `h1[channel-name]`
heading, or `none` when that inner lookup raises `NoSuchElementException`. -/
structure Item where
  label : Option String
deriving DecidableEq

/-- The comparison of `_find_channel_button`'s loop body (line 73): the
entry's text is stripped and lower-cased, the caller's input is only
lower-cased; entries without a heading never match. -/
def matchesItem (it : Item) (channel_name : String) : Bool :=
  match it.label with
  | some txt => pyLower (pyStrip txt) == pyLower channel_name
  | none => false

/-- The scan of `_find_channel_button` (lines 69-78): first matching entry in
DOM order, `None` when no entry matches. -/
def find_channel_button (items : List Item) (channel_name : String) : Option Item :=
  items.find? (matchesItem · channel_name)

/-- How the initial wait for listing entries can end: the listing populates
with `items`, or `WebDriverWait` raises `TimeoutException`, or the driver
raises some other exception (e.g. a browser-process fault). -/
inductive LoadOutcome
  | ok (items : List Item)
  | timeout
  | fault (msg : String)

/-- A Python-level outcome: a returned value or a raised exception. -/
inductive PyResult (α : Type)
  | ok (a : α)
  | exn (msg : String)
deriving DecidableEq

/-- `_find_channel_button` including its exception handling (lines 60-82):
only `TimeoutException` is caught (and mapped to `None`, like a failed
scan); any other exception propagates. -/
def find_channel_button_full (load : LoadOutcome) (channel_name : String) :
    PyResult (Option Item) :=
  match load with
  | .ok items => .ok (find_channel_button items channel_name)
  | .timeout => .ok none
  | .fault msg => .exn msg

/-- How the wait for the player container can end inside
`_extract_stream_urls`. -/
inductive PageOutcome
  | loaded (p : Page)
  | timeout
  | fault (msg : String)

/-- `_extract_stream_urls` including its handlers (lines 224-232): besides
`TimeoutException` and `NoSuchElementException` it catches every `Exception`
and returns `None`, so nothing propagates out of it. -/
def extract_stream_urls_full : PageOutcome → Option StreamInfo
  | .loaded p => extract_stream_urls p
  | .timeout => none
  | .fault _ => none

/-- The environment `get_stream_info` runs against: whether navigation or
the click raise, how the listing and player loads end, and the wall-clock
timestamp. -/
structure Env where
  navigate : Option String
  listing : LoadOutcome
  click : Option String
  page : PageOutcome
  now : Nat

/-- The assembled result of `get_stream_info` (lines 338-345): the extracted
record plus channel name and extraction time. -/
structure FullInfo where
  info : StreamInfo
  channel_name : String
  extraction_time : Nat
deriving DecidableEq

/-- The `try:` body of `get_stream_info` (lines 311-348), before the
catch-all handler: navigate, find the channel button, click, settle, extract,
and stamp channel name and time on success. -/
def get_stream_info_body (env : Env) (channel_name : String) :
    PyResult (Option FullInfo) :=
  match env.navigate with
  | some msg => .exn msg
  | none =>
    match find_channel_button_full env.listing channel_name with
    | .exn msg => .exn msg
    | .ok none => .ok none
    | .ok (some _) =>
      match env.click with
      | some msg => .exn msg
      | none =>
        match extract_stream_urls_full env.page with
        | none => .ok none
        | some si => .ok (some ⟨si, channel_name, env.now⟩)

/-- `get_stream_info` (lines 301-352): the body under `except Exception`,
which turns every raised exception into `None`. -/
def get_stream_info (env : Env) (channel_name : String) : Option FullInfo :=
  match get_stream_info_body env channel_name with
  | .ok r => r
  | .exn _ => none

/-- The flat legacy dictionary built by `get_stream_url` (lines 364-379). -/
structure LegacyView where
  m3u8 : Option String
  mp4 : Option String
  webm : Option String
  blob_url : Option String
  poster_url : Option String
deriving DecidableEq

/-- The flattening step of `get_stream_url`: copy the `urls` entries, then
add `blob_url` and `poster_url` when truthy. -/
def legacyOf (si : StreamInfo) : LegacyView :=
  ⟨si.urls.m3u8, si.urls.mp4, si.urls.webm,
   if pyTruthy si.blob_url then si.blob_url else none,
   if pyTruthy si.poster then si.poster else none⟩

/-- Python truthiness of the flat legacy dict (non-empty). -/
def LegacyView.nonempty (v : LegacyView) : Bool :=
  v.m3u8.isSome || v.mp4.isSome || v.webm.isSome ||
    v.blob_url.isSome || v.poster_url.isSome

/-- `get_stream_url` (lines 354-381): flattens a present result and returns
`None` when the flat dict would be empty or extraction failed. -/
def get_stream_url (env : Env) (channel_name : String) : Option LegacyView :=
  match get_stream_info env channel_name with
  | none => none
  | some fi =>
    let v := legacyOf fi.info
    if v.nonempty then some v else none

end PyChnl

namespace PyChnl

/-- `classifiesTo s tag`: the source is processed (truthy `src`) and the
cascade assigns it format `tag`. -/
def classifiesTo (s : SourceDecl) (tag : Fmt) : Bool :=
  pyTruthy s.src && decide (classify (s.src.getD "") s.source_type = some tag)

/-- A fixture page: poster on the container, a blob src, and one child source
declared with the playlist MIME type. -/
def examplePage : Page :=
  ⟨some "https://e/p.jpg", some "blob:xyz", none,
   [⟨some "https://e/v.m3u8", some "application/x-mpegurl"⟩],
   ⟨fun _ => [], none⟩, [], fun _ => none, none, none⟩

/-- The record `_extract_stream_urls` assembles on `examplePage`. -/
def exampleInfo : StreamInfo :=
  ⟨⟨some "https://e/v.m3u8", none, none⟩, some "https://e/p.jpg", some "blob:xyz",
   [⟨"https://e/v.m3u8", some "application/x-mpegurl"⟩], [], none⟩

/-- A fixture page on which every probe comes back empty. -/
def emptyPage : Page :=
  ⟨none, none, none, [], ⟨fun _ => [], none⟩, [], fun _ => none, none, none⟩

/-- A fixture page whose only hits are in the broader page-wide source scan. -/
def broadPage : Page :=
  ⟨none, none, none, [], ⟨fun _ => [], none⟩,
   [⟨some "https://x/app.js", none⟩, ⟨some "https://delta.webchnl.live/live/chunk.ts", none⟩],
   fun _ => none, none, none⟩

/-- A fixture environment in which the whole extraction sequence succeeds. -/
def okEnv : Env :=
  ⟨none, LoadOutcome.ok [⟨some "News"⟩], none, PageOutcome.loaded examplePage, 42⟩

/-- A fixture environment in which navigation raises a browser-process
fault. -/
def faultEnv : Env :=
  ⟨some "WebDriverException: chrome not reachable", LoadOutcome.timeout, none,
   PageOutcome.timeout, 0⟩

end PyChnl

namespace PyChnl

/-- `find?` returns the first element satisfying the predicate when everything
before it fails the predicate. -/
lemma find?_append_cons {α : Type} (q : α → Bool) (pre : List α) (a : α) (post : List α)
    (hpre : ∀ x ∈ pre, q x = false) (ha : q a = true) :
    List.find? q (pre ++ a :: post) = some a := by
  induction pre with
  | nil => simp [List.find?_cons, ha]
  | cons x xs ih =>
    have hx : q x = false := hpre x (by simp)
    simp only [List.cons_append, List.find?_cons, hx]
    exact ih fun y hy => hpre y (by simp [hy])

/-- `find?` returns `none` when every element fails the predicate. -/
lemma find?_none_of_all {α : Type} (q : α → Bool) (l : List α)
    (h : ∀ x ∈ l, q x = false) : List.find? q l = none :=
  List.find?_eq_none.mpr fun x hx => by simp [h x hx]

/-- Assigning a format key makes lookup of that key return the value. -/
lemma Urls.get_set_self (u : Urls) (tag : Fmt) (v : String) :
    (u.set tag v).get tag = some v := by
  cases tag <;> rfl

/-- Assigning one format key leaves the other keys unchanged. -/
lemma Urls.get_set_ne (u : Urls) (t1 t2 : Fmt) (v : String) (h : t1 ≠ t2) :
    (u.set t1 v).get t2 = u.get t2 := by
  cases t1 <;> cases t2 <;> first | rfl | exact absurd rfl h

/-- A loop step on a source that does not classify to `tag` leaves the `tag`
entry unchanged. -/
lemma sourceStep_get_of_not (acc : Urls × List SourceInfo) (s : SourceDecl) (tag : Fmt)
    (h : classifiesTo s tag = false) :
    ((sourceStep acc s).1).get tag = (acc.1).get tag := by
  unfold sourceStep
  by_cases ht : pyTruthy s.src
  · simp only [ht, if_true]
    cases hc : classify (s.src.getD "") s.source_type with
    | none => rfl
    | some t' =>
      simp only
      have ht' : t' ≠ tag := by
        intro he
        rw [classifiesTo, ht, hc, he] at h
        simp at h
      exact Urls.get_set_ne _ _ _ _ ht'
  · simp [ht]

/-- A loop step on a source classifying to `tag` overwrites the `tag` entry
with its URL. -/
lemma sourceStep_get_of_hit (acc : Urls × List SourceInfo) (s : SourceDecl) (tag : Fmt)
    (h : classifiesTo s tag = true) :
    ((sourceStep acc s).1).get tag = some (s.src.getD "") := by
  rw [classifiesTo, Bool.and_eq_true, decide_eq_true_eq] at h
  unfold sourceStep
  simp only [h.1, if_true, h.2]
  exact Urls.get_set_self _ _ _

/-- Folding the loop over sources none of which classify to `tag` preserves
the `tag` entry. -/
lemma foldl_sourceStep_preserve (tag : Fmt) (l : List SourceDecl) :
    ∀ acc : Urls × List SourceInfo, (∀ s ∈ l, classifiesTo s tag = false) →
      ((l.foldl sourceStep acc).1).get tag = (acc.1).get tag := by
  induction l with
  | nil => intro acc _; rfl
  | cons s ss ih =>
    intro acc h
    rw [List.foldl_cons, ih _ fun x hx => h x (List.mem_cons_of_mem _ hx)]
    exact sourceStep_get_of_not acc s tag (h s (List.mem_cons_self _ _))

/-- Inversion of `_extract_stream_urls`: a present record carries exactly the
pipeline's computed fields. -/
lemma extract_stream_urls_inv (p : Page) (si : StreamInfo)
    (h : extract_stream_urls p = some si) :
    si = ⟨urlsFinal p, posterOf p, blobOf p, sourcesOf p, metadataOf p, dimensionsOf p⟩ := by
  unfold extract_stream_urls at h
  split at h
  · exact (Option.some.injEq _ _ ▸ h).symm
  · exact absurd h (by simp)

/-- Inversion of `get_stream_info`: a present result comes from a loaded
player page with successful extraction, stamped with the caller's channel
name and the wall-clock time. -/
lemma get_stream_info_inv (env : Env) (channel_name : String) (fi : FullInfo)
    (h : get_stream_info env channel_name = some fi) :
    extract_stream_urls_full env.page = some fi.info ∧
      fi.channel_name = channel_name ∧ fi.extraction_time = env.now := by
  unfold get_stream_info get_stream_info_body at h
  cases hn : env.navigate with
  | some m => rw [hn] at h; exact absurd h (by simp)
  | none =>
    rw [hn] at h
    cases hf : find_channel_button_full env.listing channel_name with
    | exn m => rw [hf] at h; exact absurd h (by simp)
    | ok o =>
      rw [hf] at h
      cases o with
      | none => exact absurd h (by simp)
      | some it =>
        cases hc : env.click with
        | some m => rw [hc] at h; exact absurd h (by simp)
        | none =>
          rw [hc] at h
          cases he : extract_stream_urls_full env.page with
          | none => rw [he] at h; exact absurd h (by simp)
          | some si =>
            rw [he] at h
            simp only [Option.some.injEq] at h
            rw [← h]
            exact ⟨rfl, rfl, rfl⟩

/-- The blob field of the pipeline is `none` or a truthy string. -/
lemma blobOf_truthy (p : Page) :
    (if pyTruthy (blobOf p) then blobOf p else none) = blobOf p := by
  unfold blobOf
  by_cases h : pyTruthy p.video_src <;> simp [h]

/-- The poster field of the pipeline is `none` or a truthy string. -/
lemma posterOf_truthy (p : Page) :
    (if pyTruthy (posterOf p) then posterOf p else none) = posterOf p := by
  unfold posterOf
  by_cases h1 : pyTruthy p.container_poster
  · simp [h1]
  · by_cases h2 : pyTruthy p.video_poster <;> simp [h1, h2]

/-- C1 counterexample: a source whose declared type contains the `mp4` token
but whose URL ends in `.m3u8` is classified `m3u8` by the suffix rule, not
`mp4` by its MIME token as the claim states. -/
theorem c1_counterexample :
    classify "https://e/v.m3u8" (some "video/mp4") = some Fmt.m3u8 ∧
      classify "https://e/v.m3u8" (some "video/mp4") ≠ some Fmt.mp4 := by
  decide

/-- C1 (amended): all three `m3u8` rules (playlist MIME tokens, `.m3u8`
suffix, host heuristic) are applied first and jointly decide `m3u8`; only
for sources matching none of them does the MIME check win over the suffix
check — an `mp4` MIME token beats any suffix, a `webm` MIME token beats any
suffix when no `mp4` token is present — and a source with a playlist MIME
type and a `.mp4` suffix is classified `m3u8`. -/
theorem c1_classification_order :
    (∀ src source_type, is_m3u8 src source_type = true →
        classify src source_type = some Fmt.m3u8) ∧
    (∀ src source_type, is_m3u8 src source_type = false →
        pyTruthy source_type = true → pyIn "mp4" (source_type.getD "") = true →
        classify src source_type = some Fmt.mp4) ∧
    (∀ src source_type, is_m3u8 src source_type = false →
        pyIn "mp4" (source_type.getD "") = false →
        pyTruthy source_type = true → pyIn "webm" (source_type.getD "") = true →
        classify src source_type = some Fmt.webm) ∧
    classify "https://e/v.mp4" (some "application/vnd.apple.mpegurl") = some Fmt.m3u8 := by
  refine ⟨fun src t h0 => ?_, fun src t h0 h1 h2 => ?_, fun src t h0 h1 h2 h3 => ?_, by decide⟩
  · simp [classify, h0]
  · simp [classify, h0, h1, h2]
  · simp [classify, h0, h1, h2, h3]

/-- C1 witness: a source typed `video/mp4` whose URL ends in `.webm` is
classified `mp4` — the MIME check beats the suffix check for non-m3u8
sources. -/
theorem c1_witness :
    classify "https://e/v.webm" (some "video/mp4") = some Fmt.mp4 :=
  c1_classification_order.2.1 "https://e/v.webm" (some "video/mp4")
    (by decide) (by decide) (by decide)

/-- C10: the playlist MIME check is case-insensitive (it only depends on the
lower-cased declared type), while the `mp4`/`webm` MIME checks are
case-sensitive: an upper-case `video/MP4` or `video/WEBM` type with no
recognized URL suffix is left unclassified and the source is retained only
in `sources`. -/
theorem c10_mime_case_sensitivity :
    (∀ src t1 t2, pyLower t1 = pyLower t2 →
        is_m3u8 src (some t1) = is_m3u8 src (some t2)) ∧
    classify "https://cdn/stream" (some "APPLICATION/X-MPEGURL") = some Fmt.m3u8 ∧
    classify "https://cdn/stream" (some "video/MP4") = none ∧
    classify "https://cdn/stream" (some "video/WEBM") = none ∧
    classify "https://cdn/stream" (some "video/mp4") = some Fmt.mp4 ∧
    classify "https://cdn/stream" (some "video/webm") = some Fmt.webm ∧
    processSources [⟨some "https://cdn/stream", some "video/MP4"⟩] =
      (Urls.empty, [⟨"https://cdn/stream", some "video/MP4"⟩]) := by
  refine ⟨fun src t1 t2 h => ?_, by decide, by decide, by decide, by decide, by decide, by decide⟩
  have hdata : t1.data.map lowerChar = t2.data.map lowerChar := congrArg String.data h
  have hempty : t1.data.isEmpty = t2.data.isEmpty := by
    cases h1 : t1.data with
    | nil =>
      cases h2 : t2.data with
      | nil => rfl
      | cons c cs => rw [h1, h2] at hdata; simp at hdata
    | cons c cs =>
      cases h2 : t2.data with
      | nil => rw [h1, h2] at hdata; simp at hdata
      | cons d ds => rfl
  simp only [is_m3u8, pyTruthy, Option.getD_some, h, hempty]

/-- C10 witness: the playlist MIME check treats a mixed-case and a
lower-case spelling of the playlist type identically. -/
theorem c10_witness :
    is_m3u8 "https://cdn/s" (some "Application/X-MpegURL") =
      is_m3u8 "https://cdn/s" (some "application/x-mpegurl") :=
  c10_mime_case_sensitivity.1 "https://cdn/s" "Application/X-MpegURL"
    "application/x-mpegurl" (by decide)

/-- C2: `_extract_stream_urls` on a loaded page returns `None` exactly when
the computed `urls`, blob reference and `sources` are all empty, and a
present record never has all three empty. -/
theorem c2_absent_iff_all_empty (p : Page) :
    (extract_stream_urls p = none ↔
      (urlsFinal p).nonempty = false ∧ blobOf p = none ∧ sourcesOf p = []) ∧
    (∀ si, extract_stream_urls p = some si →
      (si.urls.nonempty = true ∨ si.blob_url.isSome = true ∨ si.sources ≠ [])) := by
  constructor
  · have hrw : extract_stream_urls p =
        if (urlsFinal p).nonempty || (blobOf p).isSome || !(sourcesOf p).isEmpty then
          some ⟨urlsFinal p, posterOf p, blobOf p, sourcesOf p, metadataOf p, dimensionsOf p⟩
        else none := rfl
    rw [hrw]
    generalize urlsFinal p = u
    generalize blobOf p = b
    generalize sourcesOf p = l
    cases hu : u.nonempty <;> cases b <;> cases l <;> simp_all
  · intro si h
    have hsi := extract_stream_urls_inv p si h
    unfold extract_stream_urls at h
    by_cases hc : ((urlsFinal p).nonempty || (blobOf p).isSome || !(sourcesOf p).isEmpty) = true
    · subst hsi
      show (urlsFinal p).nonempty = true ∨ (blobOf p).isSome = true ∨ sourcesOf p ≠ []
      simp only [Bool.or_eq_true, Bool.not_eq_true'] at hc
      rcases hc with (h' | h') | h'
      · exact Or.inl h'
      · exact Or.inr (Or.inl h')
      · refine Or.inr (Or.inr ?_)
        intro hnil
        simp only [hnil] at h'
        simp at h'
    · rw [if_neg hc] at h
      exact absurd h (by simp)

/-- C2 witness: on a page with every probe empty the extraction is absent,
and the record extracted from the fixture page has a non-empty component. -/
theorem c2_witness :
    extract_stream_urls emptyPage = none ∧
      (exampleInfo.urls.nonempty = true ∨ exampleInfo.blob_url.isSome = true ∨
        exampleInfo.sources ≠ []) :=
  ⟨(c2_absent_iff_all_empty emptyPage).1.mpr ⟨by decide, by rfl, by rfl⟩,
   (c2_absent_iff_all_empty examplePage).2 exampleInfo (by decide)⟩

/-- C3 counterexample: the caller's input is lower-cased but not trimmed, so
an input with surrounding whitespace misses an entry with the same
normalized label — the outcome is not independent of whitespace in the
caller's input. -/
theorem c3_counterexample :
    pyLower (pyStrip " news ") = pyLower (pyStrip "News") ∧
      find_channel_button [⟨some "News"⟩] " news " = none := by
  decide

/-- C3 (amended): the scan returns the first entry in DOM order whose
trimmed, case-folded label equals the case-folded (but not trimmed) input,
`None` when no entry matches after the full scan; entries whose label lookup
errored never match; the outcome is independent of case and whitespace in
the entry labels and of case (but not whitespace) in the input. -/
theorem c3_normalized_first_match :
    (∀ items channel_name, (∀ it ∈ items, matchesItem it channel_name = false) →
        find_channel_button items channel_name = none) ∧
    (∀ (pre : List Item) it post channel_name,
        (∀ j ∈ pre, matchesItem j channel_name = false) →
        matchesItem it channel_name = true →
        find_channel_button (pre ++ it :: post) channel_name = some it) ∧
    (∀ channel_name, matchesItem ⟨none⟩ channel_name = false) ∧
    (∀ lbl1 lbl2 channel_name, pyLower (pyStrip lbl1) = pyLower (pyStrip lbl2) →
        matchesItem ⟨some lbl1⟩ channel_name = matchesItem ⟨some lbl2⟩ channel_name) ∧
    (∀ items n1 n2, pyLower n1 = pyLower n2 →
        find_channel_button items n1 = find_channel_button items n2) := by
  refine ⟨fun items name h => find?_none_of_all _ _ h,
    fun pre it post name hpre hit => find?_append_cons _ pre it post hpre hit,
    fun name => rfl,
    fun lbl1 lbl2 name h => by simp [matchesItem, h],
    fun items n1 n2 h => ?_⟩
  induction items with
  | nil => rfl
  | cons it its ih =>
    have hcongr : matchesItem it n1 = matchesItem it n2 := by
      cases it with
      | mk lbl => cases lbl <;> simp [matchesItem, h]
    unfold find_channel_button at ih ⊢
    rw [List.find?_cons, List.find?_cons, hcongr]
    cases matchesItem it n2 <;> simp [ih]

/-- C3 witness: the first matching entry is returned, with an errored entry
and a non-matching entry skipped, matching case-insensitively against a
label with surrounding whitespace. -/
theorem c3_witness :
    find_channel_button [⟨some "Sports"⟩, ⟨none⟩, ⟨some " NEWS "⟩] "news" =
      some ⟨some " NEWS "⟩ :=
  c3_normalized_first_match.2.1 [⟨some "Sports"⟩, ⟨none⟩] ⟨some " NEWS "⟩ [] "news"
    (by decide) (by decide)

/-- C6 counterexample: a listing that never populates and a loaded listing
with no matching entry produce the very same outcome (`None`), so no
`NotFoundError`-style value distinguishes the timeout. -/
theorem c6_counterexample :
    find_channel_button_full LoadOutcome.timeout "news" =
        find_channel_button_full (LoadOutcome.ok [⟨some "Sports"⟩]) "news" ∧
      find_channel_button_full LoadOutcome.timeout "news" = PyResult.ok none := by
  decide

/-- C6 (amended): on timeout `_find_channel_button` catches the exception
and returns the same `None` as a completed scan without a match — the two
outcomes are indistinguishable to the caller; only non-timeout exceptions
propagate. -/
theorem c6_timeout_indistinguishable :
    (∀ channel_name, find_channel_button_full LoadOutcome.timeout channel_name =
        PyResult.ok none) ∧
    (∀ items channel_name, (∀ it ∈ items, matchesItem it channel_name = false) →
        find_channel_button_full (LoadOutcome.ok items) channel_name =
          find_channel_button_full LoadOutcome.timeout channel_name) ∧
    (∀ msg channel_name, find_channel_button_full (LoadOutcome.fault msg) channel_name =
        PyResult.exn msg) := by
  refine ⟨fun _ => rfl, fun items name h => ?_, fun _ _ => rfl⟩
  simp [find_channel_button_full, find_channel_button, find?_none_of_all _ _ h]

/-- C6 witness: a loaded two-entry listing without a match ends exactly like
a timed-out listing. -/
theorem c6_witness :
    find_channel_button_full (LoadOutcome.ok [⟨some "Sports"⟩, ⟨none⟩]) "movies" =
      find_channel_button_full LoadOutcome.timeout "movies" :=
  c6_timeout_indistinguishable.2.1 [⟨some "Sports"⟩, ⟨none⟩] "movies" (by decide)

/-- The pattern loop misses exactly when every pattern's match list is
empty. -/
lemma firstPatternHit_eq_none {findall : String → List PyMatch} {ps : List String} :
    firstPatternHit findall ps = none ↔ ∀ p ∈ ps, findall p = [] := by
  induction ps with
  | nil => simp [firstPatternHit]
  | cons p rest ih =>
    unfold firstPatternHit
    cases h : findall p with
    | nil =>
      rw [List.forall_mem_cons]
      simp [h, ih]
    | cons m ms => simp [h]

/-- The pattern loop returns the head match of the first pattern with a
non-empty match list. -/
lemma firstPatternHit_first (findall : String → List PyMatch) (pre : List String)
    (p : String) (post : List String) (m : PyMatch) (ms : List PyMatch)
    (hpre : ∀ q ∈ pre, findall q = []) (hp : findall p = m :: ms) :
    firstPatternHit findall (pre ++ p :: post) = some (matchToUrl m) := by
  induction pre with
  | nil => simp [firstPatternHit, hp]
  | cons q qs ih =>
    have hq : findall q = [] := hpre q (by simp)
    rw [List.cons_append]
    unfold firstPatternHit
    rw [hq]
    exact ih fun y hy => hpre y (by simp [hy])

/-- C4: the page-text fallback tries the four patterns in their listed
order, returns the first match of the first pattern that matches (a captured
sub-group standing in for the whole match), consults the in-page script only
when no pattern matched, and is absent exactly when both strategies come up
empty. -/
theorem c4_fallback_order :
    (∀ scan : PageScan, (∀ p ∈ m3u8Patterns, scan.findall p = []) →
        extract_m3u8_from_page scan = scan.js_result) ∧
    (∀ (findall : String → List PyMatch) (js1 js2 : Option String) (p : String),
        p ∈ m3u8Patterns → findall p ≠ [] →
        extract_m3u8_from_page ⟨findall, js1⟩ = extract_m3u8_from_page ⟨findall, js2⟩ ∧
          (extract_m3u8_from_page ⟨findall, js1⟩).isSome = true) ∧
    (∀ (scan : PageScan) (pre : List String) (p : String) (post : List String)
        (m : PyMatch) (ms : List PyMatch),
        m3u8Patterns = pre ++ p :: post → (∀ q ∈ pre, scan.findall q = []) →
        scan.findall p = m :: ms →
        extract_m3u8_from_page scan = some (matchToUrl m)) ∧
    (∀ s, matchToUrl (PyMatch.str s) = s) ∧
    (∀ g gs, matchToUrl (PyMatch.tup (g :: gs)) = g) ∧
    (∀ scan : PageScan, extract_m3u8_from_page scan = none ↔
        ((∀ p ∈ m3u8Patterns, scan.findall p = []) ∧ scan.js_result = none)) := by
  refine ⟨fun scan h => ?_, fun findall js1 js2 p hp hne => ?_,
    fun scan pre p post m ms heq hpre hp => ?_, fun s => rfl, fun g gs => rfl,
    fun scan => ?_⟩
  · unfold extract_m3u8_from_page
    rw [firstPatternHit_eq_none.mpr h]
  · cases hfp : firstPatternHit findall m3u8Patterns with
    | none => exact absurd (firstPatternHit_eq_none.mp hfp p hp) hne
    | some u =>
      constructor
      · show (match firstPatternHit findall m3u8Patterns with
          | some url => some url
          | none => js1) = (match firstPatternHit findall m3u8Patterns with
          | some url => some url
          | none => js2)
        rw [hfp]
      · show (match firstPatternHit findall m3u8Patterns with
          | some url => some url
          | none => js1).isSome = true
        rw [hfp]
        rfl
  · unfold extract_m3u8_from_page
    rw [heq, firstPatternHit_first scan.findall pre p post m ms hpre hp]
  · cases hfp : firstPatternHit scan.findall m3u8Patterns with
    | none =>
      have hall := firstPatternHit_eq_none.mp hfp
      simp only [extract_m3u8_from_page, hfp]
      exact ⟨fun hj => ⟨hall, hj⟩, fun hj => hj.2⟩
    | some u =>
      have hne : ¬∀ p ∈ m3u8Patterns, scan.findall p = [] := by
        intro hall
        rw [firstPatternHit_eq_none.mpr hall] at hfp
        exact Option.noConfusion hfp
      simp [extract_m3u8_from_page, hfp, hne]

/-- C4 witness: with no pattern matching, the fallback returns exactly the
in-page script's value. -/
theorem c4_witness :
    extract_m3u8_from_page ⟨fun _ => [], some "https://delta.webchnl.live/a.m3u8"⟩ =
      some "https://delta.webchnl.live/a.m3u8" :=
  c4_fallback_order.1 ⟨fun _ => [], some "https://delta.webchnl.live/a.m3u8"⟩
    (fun _ _ => rfl)

/-- C5 counterexample: a browser-process fault raised while navigating is
swallowed by `get_stream_info`'s catch-all handler and reported as the
absent value, not propagated as an exception as the claim states. -/
theorem c5_counterexample :
    get_stream_info_body faultEnv "news" =
        PyResult.exn "WebDriverException: chrome not reachable" ∧
      get_stream_info faultEnv "news" = none := by
  decide

/-- C5 (amended): every exception raised inside the extraction sequence —
browser-process faults included — is caught by the entry point's catch-all
handler and mapped to the absent value; `get_stream_info` never raises, and
a present result always stems from a successful extraction stamped with the
caller's channel name. -/
theorem c5_catch_all :
    (∀ env channel_name msg,
        get_stream_info_body env channel_name = PyResult.exn msg →
        get_stream_info env channel_name = none) ∧
    (∀ env channel_name fi,
        get_stream_info env channel_name = some fi →
        extract_stream_urls_full env.page = some fi.info ∧
          fi.channel_name = channel_name) := by
  refine ⟨fun env name msg h => ?_, fun env name fi h => ?_⟩
  · unfold get_stream_info
    rw [h]
  · exact ⟨(get_stream_info_inv env name fi h).1, (get_stream_info_inv env name fi h).2.1⟩

/-- C5 witness: the faulting environment yields the absent value. -/
theorem c5_witness : get_stream_info faultEnv "sports" = none :=
  c5_catch_all.1 faultEnv "sports" "WebDriverException: chrome not reachable" (by decide)

/-- C7: when several sources classify to the same format tag, the `urls`
entry for that tag is the URL of the last such source in enumeration order;
the later fallback stages never touch the `mp4` and `webm` entries and leave
an existing `m3u8` entry alone. -/
theorem c7_last_wins :
    (∀ (pre : List SourceDecl) (s : SourceDecl) (post : List SourceDecl) (tag : Fmt),
        classifiesTo s tag = true → (∀ s' ∈ post, classifiesTo s' tag = false) →
        ((processSources (pre ++ s :: post)).1).get tag = some (s.src.getD "")) ∧
    (∀ p, (urlsFinal p).mp4 = (urlsLoop p).mp4 ∧ (urlsFinal p).webm = (urlsLoop p).webm) ∧
    (∀ p, (urlsLoop p).m3u8.isSome = true → (urlsFinal p).m3u8 = (urlsLoop p).m3u8) := by
  refine ⟨fun pre s post tag hs hpost => ?_, fun p => ?_, fun p h => ?_⟩
  · unfold processSources
    rw [List.foldl_append, List.foldl_cons,
      foldl_sourceStep_preserve tag post _ hpost]
    exact sourceStep_get_of_hit _ s tag hs
  · constructor <;>
    · unfold urlsFinal urlsAfterPage
      repeat' split
      all_goals rfl
  · cases hm : (urlsLoop p).m3u8 with
    | none => rw [hm] at h; exact absurd h (by simp)
    | some v => simp [urlsFinal, urlsAfterPage, hm]

/-- C7 witness: of two sources both classified `mp4` by suffix, the later
URL ends up in the `mp4` entry. -/
theorem c7_witness :
    ((processSources [⟨some "https://e/a.mp4", none⟩, ⟨some "https://e/b.mp4", none⟩]).1).get
        Fmt.mp4 = some "https://e/b.mp4" :=
  c7_last_wins.1 [⟨some "https://e/a.mp4", none⟩] ⟨some "https://e/b.mp4", none⟩ [] Fmt.mp4
    (by decide) (by decide)

/-- C8: the legacy flattened view of a present extraction result consists of
exactly the `urls` entries plus the blob reference under `blob_url` and the
poster under `poster_url` when set, and `get_stream_url` is absent exactly
when that flat mapping would be empty; on `urls = ⟨m3u8 X⟩`, poster `P`, no
blob, it yields exactly `⟨m3u8 X, poster_url P⟩`. -/
theorem c8_legacy_flatten :
    (∀ env channel_name fi, get_stream_info env channel_name = some fi →
        legacyOf fi.info = ⟨fi.info.urls.m3u8, fi.info.urls.mp4, fi.info.urls.webm,
          fi.info.blob_url, fi.info.poster⟩) ∧
    (∀ env channel_name fi, get_stream_info env channel_name = some fi →
        (get_stream_url env channel_name = none ↔
          (legacyOf fi.info).nonempty = false)) ∧
    legacyOf ⟨⟨some "X", none, none⟩, some "P", none, [], [], none⟩ =
      ⟨some "X", none, none, none, some "P"⟩ := by
  refine ⟨fun env name fi h => ?_, fun env name fi h => ?_, by decide⟩
  · obtain ⟨hext, -, -⟩ := get_stream_info_inv env name fi h
    cases hp : env.page with
    | loaded p =>
      rw [hp] at hext
      have hfi := extract_stream_urls_inv p fi.info hext
      rw [hfi]
      simp [legacyOf, blobOf_truthy p, posterOf_truthy p]
    | timeout => rw [hp] at hext; exact absurd hext (by simp [extract_stream_urls_full])
    | fault m => rw [hp] at hext; exact absurd hext (by simp [extract_stream_urls_full])
  · unfold get_stream_url
    rw [h]
    by_cases hv : (legacyOf fi.info).nonempty = true
    · simp [hv]
    · simp only [Bool.not_eq_true] at hv
      simp [hv]

/-- C8 witness: the fixture run's legacy view is exactly the `urls` entries
plus the blob and poster keys. -/
theorem c8_witness :
    legacyOf exampleInfo = ⟨exampleInfo.urls.m3u8, exampleInfo.urls.mp4,
      exampleInfo.urls.webm, exampleInfo.blob_url, exampleInfo.poster⟩ :=
  c8_legacy_flatten.1 okEnv "news" ⟨exampleInfo, "news", 42⟩ (by decide)

/-- C9: when the per-source loop and the page-text fallback produced no
`m3u8` entry, the extractor's third stage scans every `source` element on
the page and installs the first one whose URL contains `.m3u8` or the
`delta.webchnl.live` origin as the `m3u8` entry; with an entry already
present the stage changes nothing. -/
theorem c9_broader_scan :
    (∀ p, (urlsAfterPage p).m3u8.isSome = true → urlsFinal p = urlsAfterPage p) ∧
    (∀ (p : Page) (pre : List SourceDecl) (s : SourceDecl) (post : List SourceDecl),
        (urlsAfterPage p).m3u8 = none → p.all_sources = pre ++ s :: post →
        (∀ s' ∈ pre, broadMatch s' = false) → broadMatch s = true →
        (urlsFinal p).m3u8 = some (s.src.getD "")) ∧
    (∀ p, (urlsAfterPage p).m3u8 = none →
        (∀ s ∈ p.all_sources, broadMatch s = false) → (urlsFinal p).m3u8 = none) := by
  refine ⟨fun p h => ?_, fun p pre s post hm hsrc hpre hs => ?_, fun p hm hall => ?_⟩
  · cases hma : (urlsAfterPage p).m3u8 with
    | none => rw [hma] at h; exact absurd h (by simp)
    | some v => simp [urlsFinal, hma]
  · unfold urlsFinal
    rw [hsrc, find?_append_cons broadMatch pre s post hpre hs]
    simp [hm, Urls.set]
  · unfold urlsFinal
    rw [find?_none_of_all broadMatch p.all_sources hall]
    simp [hm]

/-- C9 witness: with nothing from the first two stages, the broader scan
installs the first matching page-wide source URL under `m3u8`. -/
theorem c9_witness :
    (urlsFinal broadPage).m3u8 = some "https://delta.webchnl.live/live/chunk.ts" :=
  c9_broader_scan.2.1 broadPage [⟨some "https://x/app.js", none⟩]
    ⟨some "https://delta.webchnl.live/live/chunk.ts", none⟩ []
    (by decide) (by decide) (by decide) (by decide)

end PyChnl
